import Mathlib

/-!
Verification of `rust-key-value-store-demo` (`src/main.rs`).

The program is a CLI key-value store persisting a `HashMap<String, String>`
(`type Database`) to a file through one of four serialization backends
(YAML, JSON, SQLite, CSV), selected by file-name suffix.

Shallow embedding conventions:
* `Database` (Rust `HashMap<String, String>`) is modelled as an association
  list with unique keys; `dbGet`/`dbInsert`/`dbRemove` mirror
  `HashMap::get`/`insert`/`remove` (insert and remove return the previous
  value, as in Rust).
* `Error` mirrors the `enum Error` of the source; payloads that carry
  foreign library errors are dropped, the `KeyDoesNotExist` payload (the
  offending key) is kept.
* A `Serializer` is a pair `read_from_file`/`write_to_file` acting on an
  abstract resource type `Res` (the file's content); `write_to_file`
  returns the outcome together with the resulting resource state, so that
  "the resource is left unmodified" is expressible.
* Fallible Rust code returning `Result` becomes `Except Error`.
-/

namespace KVStoreDemo

/-- `type Database = HashMap<String, String>` modelled as an association
list of key/value pairs (unique keys wherever the map invariant holds). -/
abbrev Database := List (String × String)

/-- The `enum Error` of `main.rs`: `IO`, `SerdeYaml`, `SerdeJson`, `Sql`,
`Csv`, `KeyAlreadyExists`, `KeyDoesNotExist` (which carries the key). -/
inductive Error where
  | ioErr
  | serdeYaml
  | serdeJson
  | sql
  | csv
  | keyAlreadyExists
  | keyDoesNotExist (key : String)
  deriving DecidableEq, Repr

/-- `HashMap::get`: the value stored at `k`, if any. -/
def dbGet : Database → String → Option String
  | [], _ => none
  | (k', v) :: rest, k => if k' = k then some v else dbGet rest k

/-- Remove every binding of key `k` (the map has at most one). Mirrors the
effect of `HashMap::remove` on the stored mapping. -/
def dbRemove : Database → String → Database
  | [], _ => []
  | (k', v) :: rest, k => if k' = k then dbRemove rest k else (k', v) :: dbRemove rest k

/-- The mapping after `HashMap::insert k v`: `k` now maps to `v`, all other
keys are untouched. -/
def dbInsert (db : Database) (k v : String) : Database :=
  dbRemove db k ++ [(k, v)]

/-- `true` iff no key occurs twice: the `HashMap` representation invariant. -/
def keysNodup : Database → Bool
  | [] => true
  | (k, _) :: rest => (dbGet rest k).isNone && keysNodup rest

/-- A backend adapter (`trait Serializer`), over an abstract resource state
`Res`. `write_to_file` also returns the resource state after the attempt:
`(.ok (), r')` on success, `(.error e, r')` on failure. -/
structure Serializer (Res : Type) where
  read_from_file : Res → Except Error Database
  write_to_file : Res → Database → Except Error Unit × Res

/-- `fn add_key`: read the database, insert the pair, fail with
`KeyAlreadyExists` if the key had a previous value, otherwise write. The
returned `Res` is the resource state after the command. -/
def add_key {Res : Type} (s : Serializer Res) (r : Res) (k v : String) :
    Except Error Unit × Res :=
  match s.read_from_file r with
  | .error e => (.error e, r)
  | .ok db =>
    let res := dbGet db k
    let db' := dbInsert db k v
    if res.isSome then (.error .keyAlreadyExists, r)
    else s.write_to_file r db'

/-- `fn remove_db_key`: read the database, remove the key, fail with
`KeyDoesNotExist {key}` if it had no value, otherwise write. -/
def remove_db_key {Res : Type} (s : Serializer Res) (r : Res) (k : String) :
    Except Error Unit × Res :=
  match s.read_from_file r with
  | .error e => (.error e, r)
  | .ok db =>
    let res := dbGet db k
    let db' := dbRemove db k
    if res.isNone then (.error (.keyDoesNotExist k), r)
    else s.write_to_file r db'

/-- The seed store built by `init_db`: insert `hat → fedora`, then
`food → hotdog`, into an empty map. -/
def initStore : Database :=
  dbInsert (dbInsert [] "hat" "fedora") "food" "hotdog"

/-- `fn init_db`: build the seed store and write it; the prior resource
content is never read. -/
def init_db {Res : Type} (s : Serializer Res) (r : Res) :
    Except Error Unit × Res :=
  s.write_to_file r initStore

/-- The four backend kinds behind `Box<dyn Serializer>`. -/
inductive SerializerKind where
  | yaml
  | json
  | sqlite
  | csvKind
  deriving DecidableEq, Repr

/-- Rust's `str::ends_with`: the needle is a suffix of the haystack's
character sequence. -/
def ends_with (s suffix : String) : Bool :=
  suffix.data.isSuffixOf s.data

/-- `fn create_serializer`: pick the backend by file-name suffix, first
match wins, YAML as the fallback. Total: there is no error path. -/
def create_serializer (fname : String) : SerializerKind :=
  if ends_with fname ".yml" then .yaml
  else if ends_with fname ".json" then .json
  else if ends_with fname ".db" || ends_with fname ".sqlite" then .sqlite
  else if ends_with fname ".csv" then .csvKind
  else .yaml

/-- The backend-selection contract, written out from the spec's wording:
suffix match in order `.yml`, `.json`, `.db`, `.sqlite`, `.csv`, else YAML. -/
def selector_spec (fname : String) : SerializerKind :=
  if ends_with fname ".yml" then .yaml
  else if ends_with fname ".json" then .json
  else if ends_with fname ".db" then .sqlite
  else if ends_with fname ".sqlite" then .sqlite
  else if ends_with fname ".csv" then .csvKind
  else .yaml

/-! ## SQLite backend

The resource is the committed `kvstore` table, a list of `(key, value)`
rows in rowid order. `read_from_file` mirrors
`SqliteSerializer::read_from_file`: iterate the rows in order, inserting
into a fresh map and failing with `Error::KeyAlreadyExists` when a key
repeats. `write_to_file` mirrors `SqliteSerializer::write_to_file`:
DROP TABLE, CREATE TABLE, one INSERT per entry, then COMMIT, all in one
transaction. Modelled from the spec: rusqlite transaction semantics (the
library is outside the repository) — uncommitted work is rolled back, so
on any failing step the committed table stays what it was; fallibility of
the SQL steps is an oracle `fail : Nat → Bool` over step indices
(0 = DROP, 1 = CREATE, 2+i = the i-th INSERT, 2+n = COMMIT), and an
INSERT also fails on a `key` UNIQUE-constraint violation. -/

/-- The committed `kvstore` table: `(key, value)` rows in rowid order. -/
abbrev Table := List (String × String)

/-- The row-insertion loop shared by the SQLite and CSV readers: insert
each row, failing with `Error::KeyAlreadyExists` when the key is present. -/
def readRows : Database → List (String × String) → Except Error Database
  | db, [] => .ok db
  | db, (k, v) :: rest =>
    if (dbGet db k).isSome then .error .keyAlreadyExists
    else readRows (db ++ [(k, v)]) rest

/-- `SqliteSerializer::read_from_file`: read all rows of `kvstore` in
order, rejecting a repeated key. -/
def sqlite_read_from_file (t : Table) : Except Error Database :=
  readRows [] t

/-- The INSERT loop of `SqliteSerializer::write_to_file`, acting on the
transaction's pending table. Step `n` fails when the oracle says so; an
insert whose key is already present violates the `key` UNIQUE constraint
and also fails. -/
def insertRowsTx (fail : Nat → Bool) : Nat → Table → Database → Except Error Table
  | _, pending, [] => .ok pending
  | n, pending, (k, v) :: rest =>
    if fail n then .error .sql
    else if (dbGet pending k).isSome then .error .sql
    else insertRowsTx fail (n + 1) (pending ++ [(k, v)]) rest

/-- `SqliteSerializer::write_to_file` with failure oracle `fail`: DROP
(step 0), CREATE (step 1), the INSERTs (steps 2..), COMMIT (last step);
returns the outcome and the committed table, which is the pending table
only when COMMIT ran, and the old table on any failure (rollback). -/
def sqlite_write_to_file (fail : Nat → Bool) (old : Table) (db : Database) :
    Except Error Unit × Table :=
  if fail 0 then (.error .sql, old)
  else if fail 1 then (.error .sql, old)
  else
    match insertRowsTx fail 2 [] db with
    | .error e => (.error e, old)
    | .ok pending =>
      if fail (2 + db.length) then (.error .sql, old)
      else (.ok (), pending)

/-- The all-steps-succeed oracle. -/
def noFail : Nat → Bool := fun _ => false

/-- The oracle under which exactly the CREATE TABLE step (step 1) fails. -/
def failCreate : Nat → Bool := fun n => n == 1

/-! ## CSV backend

The resource is the list of CSV records, each a list of fields (the `csv`
crate handles quoting, so records of fields model the file exactly).
Modelled from the spec and the `csv` crate's documented defaults (the
crate is outside the repository): the first record is the header and is
skipped; with the default non-flexible reader, a record whose field count
differs from the header's fails the iteration (`row?` propagates it as
`Error::Csv`); then `assert_eq!(kv.len(), 2)` panics when the record that
got through has a field count other than 2; then the duplicate-key check
as in the SQLite reader. A Rust panic is not a `Result`, so the CSV read
outcome has a third constructor. -/

/-- Outcome of `CsvSerializer::read_from_file`: a database, an `Err`, or a
panic of the `assert_eq!`. -/
inductive ReadOutcome where
  | ok (db : Database)
  | err (e : Error)
  | panicked
  deriving DecidableEq, Repr

/-- `true` exactly on the `err` outcome. -/
def ReadOutcome.isErr : ReadOutcome → Bool
  | .err _ => true
  | _ => false

/-- The record loop of `CsvSerializer::read_from_file`, with `hlen` the
header's field count: wrong-length record ⇒ `Error::Csv`; a record of
`hlen` fields that is not a 2-field record ⇒ the assertion panics;
otherwise insert with the duplicate-key check. -/
def csvReadRecords (hlen : Nat) : Database → List (List String) → ReadOutcome
  | db, [] => .ok db
  | db, fields :: rest =>
    if fields.length ≠ hlen then .err .csv
    else
      match fields with
      | [k, v] =>
        if (dbGet db k).isSome then .err .keyAlreadyExists
        else csvReadRecords hlen (db ++ [(k, v)]) rest
      | _ => .panicked

/-- `CsvSerializer::read_from_file`: the first record is the header; on an
empty file there are no records and the database is empty. -/
def csv_read_from_file : List (List String) → ReadOutcome
  | [] => .ok []
  | header :: rest => csvReadRecords header.length [] rest

/-- `CsvSerializer::write_to_file`: a `key,value` header record, then one
record per entry, overwriting whatever the file held. -/
def csv_write_to_file (db : Database) : List (List String) :=
  ["key", "value"] :: db.map (fun p => [p.1, p.2])

/-! ## YAML and JSON backends

Modelled from the spec: the serde encode/decode of a `HashMap<String,
String>` (the `serde_yaml`/`serde_json` crates are outside the
repository). The resource is the sequence of key/value entries of the
document in order; encoding writes the map's entries, decoding rebuilds
the map by inserting the entries in order (the format's native map
deserialization). -/

/-- Build a map by inserting entries in document order. -/
def mapFromEntries (entries : List (String × String)) : Database :=
  entries.foldl (fun acc p => dbInsert acc p.1 p.2) []

/-- `YamlSerializer::read_from_file`, modelled from the spec:
whole-document deserialize into a key→value mapping. -/
def yaml_read_from_file (entries : List (String × String)) : Except Error Database :=
  .ok (mapFromEntries entries)

/-- `YamlSerializer::write_to_file`, modelled from the spec: serialize the
full mapping, overwriting the document. -/
def yaml_write_to_file (db : Database) : List (String × String) :=
  db

/-- `JsonSerializer::read_from_file`, modelled from the spec (same shape
as YAML, over JSON objects). -/
def json_read_from_file (entries : List (String × String)) : Except Error Database :=
  .ok (mapFromEntries entries)

/-- `JsonSerializer::write_to_file`, modelled from the spec. -/
def json_write_to_file (db : Database) : List (String × String) :=
  db

/-! ## Concrete serializers used to instantiate the abstract theorems -/

/-- A serializer whose resource is the database itself: reading always
succeeds and writing installs the new database. -/
def idSerializer : Serializer Database where
  read_from_file := fun r => .ok r
  write_to_file := fun _ db => (.ok (), db)

/-- A serializer whose read always fails with a decode error and whose
write always fails with an I/O error. -/
def readFailsSerializer : Serializer Unit where
  read_from_file := fun _ => .error .serdeYaml
  write_to_file := fun _ _ => (.error .ioErr, ())

/-- A serializer with the same write as `readFailsSerializer` but a
succeeding read. -/
def readOkSerializer : Serializer Unit where
  read_from_file := fun _ => .ok []
  write_to_file := fun _ _ => (.error .ioErr, ())

/-! ## Lemmas about the map operations -/

theorem dbGet_append_left {db1 : Database} {k v : String}
    (h : dbGet db1 k = some v) (db2 : Database) :
    dbGet (db1 ++ db2) k = some v := by
  induction db1 with
  | nil => simp [dbGet] at h
  | cons p rest ih =>
    obtain ⟨k', v'⟩ := p
    by_cases hk : k' = k
    · simp [dbGet, hk] at h ⊢; exact h
    · simp [dbGet, hk] at h ⊢; exact ih h

theorem dbGet_append_right {db1 : Database} {k : String}
    (h : dbGet db1 k = none) (db2 : Database) :
    dbGet (db1 ++ db2) k = dbGet db2 k := by
  induction db1 with
  | nil => simp [dbGet]
  | cons p rest ih =>
    obtain ⟨k', v'⟩ := p
    by_cases hk : k' = k
    · simp [dbGet, hk] at h
    · simp [dbGet, hk] at h ⊢; exact ih h

theorem dbGet_ne_of_none {db : Database} {k : String}
    (h : dbGet db k = none) {p : String × String} (hp : p ∈ db) : p.1 ≠ k := by
  induction db with
  | nil => simp at hp
  | cons q rest ih =>
    obtain ⟨k', v'⟩ := q
    by_cases hk : k' = k
    · simp [dbGet, hk] at h
    · rcases List.mem_cons.mp hp with hh | ht
      · subst hh; exact hk
      · exact ih (by simpa [dbGet, hk] using h) ht

theorem exists_mem_of_dbGet_isSome {db : Database} {k : String}
    (h : (dbGet db k).isSome = true) : ∃ v, (k, v) ∈ db := by
  induction db with
  | nil => simp [dbGet] at h
  | cons q rest ih =>
    obtain ⟨k', v'⟩ := q
    by_cases hk : k' = k
    · exact ⟨v', by simp [hk]⟩
    · rcases ih (by simpa [dbGet, hk] using h) with ⟨v, hv⟩
      exact ⟨v, by simp [hv]⟩

theorem dbRemove_of_none {db : Database} {k : String} (h : dbGet db k = none) :
    dbRemove db k = db := by
  induction db with
  | nil => rfl
  | cons q rest ih =>
    obtain ⟨k', v'⟩ := q
    by_cases hk : k' = k
    · simp [dbGet, hk] at h
    · simp [dbRemove, hk]; exact ih (by simpa [dbGet, hk] using h)

theorem dbGet_dbRemove_self (db : Database) (k : String) :
    dbGet (dbRemove db k) k = none := by
  induction db with
  | nil => rfl
  | cons q rest ih =>
    obtain ⟨k', v'⟩ := q
    by_cases hk : k' = k
    · simp [dbRemove, hk, ih]
    · simp [dbRemove, dbGet, hk, ih]

theorem dbGet_dbRemove_ne (db : Database) {k k' : String} (h : k' ≠ k) :
    dbGet (dbRemove db k) k' = dbGet db k' := by
  induction db with
  | nil => rfl
  | cons q rest ih =>
    obtain ⟨k'', v''⟩ := q
    by_cases hk : k'' = k
    · simp [dbRemove, dbGet, hk, ih, h.symm]
    · by_cases hk2 : k'' = k'
      · simp [dbRemove, dbGet, hk, hk2, h]
      · simp [dbRemove, dbGet, hk, hk2, ih, h]

theorem dbInsert_of_none {db : Database} {k : String} (v : String)
    (h : dbGet db k = none) : dbInsert db k v = db ++ [(k, v)] := by
  unfold dbInsert; rw [dbRemove_of_none h]

theorem dbGet_append_single {db : Database} {k : String} (v : String)
    (hnone : dbGet db k = none) (k' : String) :
    dbGet (db ++ [(k, v)]) k' = if k' = k then some v else dbGet db k' := by
  by_cases h : k' = k
  · subst h; rw [dbGet_append_right hnone, if_pos rfl]; simp [dbGet]
  · rw [if_neg h]
    cases hg : dbGet db k' with
    | none =>
      rw [dbGet_append_right hg]
      simp only [dbGet, hg]
      exact if_neg (fun hh : k = k' => h hh.symm)
    | some v' => rw [dbGet_append_left hg]

theorem dbGet_dbRemove_frame (db : Database) (k k' : String) :
    dbGet (dbRemove db k) k' = if k' = k then none else dbGet db k' := by
  by_cases h : k' = k
  · subst h; simp [dbGet_dbRemove_self]
  · simp [h, dbGet_dbRemove_ne db h]

theorem dbGet_dbInsert_frame (db : Database) (k v k' : String) :
    dbGet (dbInsert db k v) k' = if k' = k then some v else dbGet db k' := by
  unfold dbInsert
  rw [dbGet_append_single v (dbGet_dbRemove_self db k) k']
  by_cases h : k' = k
  · simp [h]
  · simp [h, dbGet_dbRemove_ne db h]

/-! ## Lemmas about the row-reading and row-inserting loops -/

theorem readRows_ok (rows : Database) : ∀ db : Database,
    keysNodup rows = true → (∀ p ∈ rows, dbGet db p.1 = none) →
    readRows db rows = .ok (db ++ rows) := by
  induction rows with
  | nil => intro db _ _; simp [readRows]
  | cons p rest ih =>
    obtain ⟨k, v⟩ := p
    intro db hnd hdis
    have hk : dbGet db k = none := hdis (k, v) (by simp)
    simp only [keysNodup, Bool.and_eq_true] at hnd
    have hrest : dbGet rest k = none := Option.isNone_iff_eq_none.mp hnd.1
    rw [readRows, hk]
    simp only [Option.isSome_none, if_neg Bool.false_ne_true]
    rw [ih (db ++ [(k, v)]) hnd.2 ?_]
    · simp
    · intro p hp
      have hne : p.1 ≠ k := dbGet_ne_of_none hrest hp
      rw [dbGet_append_right (hdis p (by simp [hp]))]
      simp only [dbGet]
      rw [if_neg (fun hh : k = p.1 => hne hh.symm)]

theorem readRows_err (rows : Database) : ∀ db : Database,
    (keysNodup rows = false ∨ ∃ p ∈ rows, (dbGet db p.1).isSome = true) →
    readRows db rows = .error .keyAlreadyExists := by
  induction rows with
  | nil =>
    intro db h
    rcases h with h | ⟨p, hp, _⟩
    · simp [keysNodup] at h
    · simp at hp
  | cons q rest ih =>
    obtain ⟨k, v⟩ := q
    intro db h
    by_cases hk : (dbGet db k).isSome = true
    · simp [readRows, hk]
    · have hks : (dbGet db k).isSome = false := by simpa using hk
      have hknone : dbGet db k = none := by
        cases hg : dbGet db k with
        | none => rfl
        | some v' => rw [hg] at hks; simp at hks
      rw [readRows, hks]
      simp only [if_neg Bool.false_ne_true]
      apply ih
      rcases h with hnd | ⟨p, hp, hps⟩
      · rw [keysNodup] at hnd
        cases hni : (dbGet rest k).isNone with
        | true =>
          left
          rw [hni] at hnd; simpa using hnd
        | false =>
          right
          have hsome : (dbGet rest k).isSome = true := by
            cases hg : dbGet rest k with
            | none => rw [hg] at hni; simp at hni
            | some v' => simp
          rcases exists_mem_of_dbGet_isSome hsome with ⟨v', hv'⟩
          refine ⟨(k, v'), hv', ?_⟩
          rw [dbGet_append_right hknone]
          simp [dbGet]
      · rcases List.mem_cons.mp hp with hh | ht
        · rw [hh] at hps; rw [hps] at hks; simp at hks
        · right
          rcases hg : dbGet db p.1 with _ | v'
          · rw [hg] at hps; simp at hps
          · exact ⟨p, ht, by rw [dbGet_append_left hg]; rfl⟩

theorem insertRowsTx_noFail_ok (rows : Database) : ∀ (n : Nat) (pending : Table),
    keysNodup rows = true → (∀ p ∈ rows, dbGet pending p.1 = none) →
    insertRowsTx noFail n pending rows = .ok (pending ++ rows) := by
  induction rows with
  | nil => intro n pending _ _; simp [insertRowsTx]
  | cons q rest ih =>
    obtain ⟨k, v⟩ := q
    intro n pending hnd hdis
    have hk : dbGet pending k = none := hdis (k, v) (by simp)
    simp only [keysNodup, Bool.and_eq_true] at hnd
    have hrest : dbGet rest k = none := Option.isNone_iff_eq_none.mp hnd.1
    rw [insertRowsTx, hk]
    simp only [noFail, Option.isSome_none, if_neg Bool.false_ne_true, Bool.false_eq_true,
      if_false]
    rw [ih (n + 1) (pending ++ [(k, v)]) hnd.2 ?_]
    · simp
    · intro p hp
      have hne : p.1 ≠ k := dbGet_ne_of_none hrest hp
      rw [dbGet_append_right (hdis p (by simp [hp]))]
      simp only [dbGet]
      rw [if_neg (fun hh : k = p.1 => hne hh.symm)]

theorem insertRowsTx_ok_shape (fail : Nat → Bool) (rows : Database) :
    ∀ (n : Nat) (pending t : Table),
    insertRowsTx fail n pending rows = .ok t → t = pending ++ rows := by
  induction rows with
  | nil =>
    intro n pending t h
    simp [insertRowsTx] at h
    simp [← h]
  | cons q rest ih =>
    obtain ⟨k, v⟩ := q
    intro n pending t h
    rw [insertRowsTx] at h
    by_cases hf : fail n = true
    · simp [hf] at h
    · simp only [hf, Bool.false_eq_true, if_false] at h
      by_cases hdup : (dbGet pending k).isSome = true
      · simp [hdup] at h
      · have hdup' : (dbGet pending k).isSome = false := by simpa using hdup
        rw [hdup'] at h
        simp only [if_neg Bool.false_ne_true] at h
        rw [ih (n + 1) (pending ++ [(k, v)]) t h]
        simp

theorem csvReadRecords_map (pairs : Database) : ∀ db : Database,
    csvReadRecords 2 db (pairs.map fun p => [p.1, p.2]) =
      (match readRows db pairs with
       | .ok d => ReadOutcome.ok d
       | .error e => ReadOutcome.err e) := by
  induction pairs with
  | nil => intro db; simp [csvReadRecords, readRows]
  | cons q rest ih =>
    obtain ⟨k, v⟩ := q
    intro db
    rw [List.map_cons, csvReadRecords, readRows]
    simp only [List.length_cons, List.length_singleton, List.length_nil]
    rw [if_neg (by simp)]
    by_cases hk : (dbGet db k).isSome = true
    · simp [hk]
    · have hks : (dbGet db k).isSome = false := by simpa using hk
      simp only [hks, if_neg Bool.false_ne_true]
      exact ih (db ++ [(k, v)])

theorem foldl_dbInsert_append (entries : Database) : ∀ acc : Database,
    keysNodup entries = true → (∀ p ∈ entries, dbGet acc p.1 = none) →
    entries.foldl (fun acc p => dbInsert acc p.1 p.2) acc = acc ++ entries := by
  induction entries with
  | nil => intro acc _ _; simp
  | cons q rest ih =>
    obtain ⟨k, v⟩ := q
    intro acc hnd hdis
    have hk : dbGet acc k = none := hdis (k, v) (by simp)
    simp only [keysNodup, Bool.and_eq_true] at hnd
    have hrest : dbGet rest k = none := Option.isNone_iff_eq_none.mp hnd.1
    rw [List.foldl_cons]
    have hins : dbInsert acc k v = acc ++ [(k, v)] := dbInsert_of_none v hk
    simp only [hins]
    rw [ih (acc ++ [(k, v)]) hnd.2 ?_]
    · simp
    · intro p hp
      have hne : p.1 ≠ k := dbGet_ne_of_none hrest hp
      rw [dbGet_append_right (hdis p (by simp [hp]))]
      simp only [dbGet]
      rw [if_neg (fun hh : k = p.1 => hne hh.symm)]

theorem mapFromEntries_self {entries : Database} (h : keysNodup entries = true) :
    mapFromEntries entries = entries := by
  unfold mapFromEntries
  rw [foldl_dbInsert_append entries [] h (fun p _ => rfl)]
  simp

theorem sqlite_write_noFail {db : Database} (h : keysNodup db = true)
    (old : Table) : sqlite_write_to_file noFail old db = (.ok (), db) := by
  have hins : insertRowsTx noFail 2 [] db = .ok ([] ++ db) :=
    insertRowsTx_noFail_ok db 2 [] h (fun p _ => rfl)
  have hstep : sqlite_write_to_file noFail old db =
      (match insertRowsTx noFail 2 [] db with
       | .error e => (.error e, old)
       | .ok pending =>
         if noFail (2 + db.length) then (.error .sql, old)
         else (.ok (), pending)) := rfl
  rw [hstep, hins]
  simp [noFail]

/-! ## The claims -/

/-- Claim C1: `add_key` fails with `KeyAlreadyExists` iff the key is
already present in the store read from the resource, and on that
rejection no write is performed — the resource is returned unmodified.
The hypothesis `hw` records that the backend writers never produce
`Error::KeyAlreadyExists` (true of all four adapters: their write errors
are I/O, serde, SQL or CSV errors). -/
theorem add_key_rejected_iff_key_present (Res : Type) (s : Serializer Res)
    (r : Res) (k v : String) (db : Database)
    (hr : s.read_from_file r = .ok db)
    (hw : ∀ d : Database, (s.write_to_file r d).1 ≠ .error .keyAlreadyExists) :
    ((add_key s r k v).1 = .error .keyAlreadyExists ↔ (dbGet db k).isSome = true) ∧
    ((dbGet db k).isSome = true →
      add_key s r k v = (.error .keyAlreadyExists, r)) := by
  have hstep : add_key s r k v =
      if (dbGet db k).isSome then (.error .keyAlreadyExists, r)
      else s.write_to_file r (dbInsert db k v) := by
    unfold add_key
    rw [hr]
  by_cases h : (dbGet db k).isSome = true
  · rw [hstep, if_pos h]
    exact ⟨⟨fun _ => h, fun _ => rfl⟩, fun _ => rfl⟩
  · rw [hstep, if_neg h]
    exact ⟨⟨fun hc => absurd hc (hw _), fun hc => absurd hc h⟩,
      fun hc => absurd hc h⟩

/-- Witness for the claim C1 theorem: database `[("a", "b")]`, adding the
already-present key `"a"`. -/
theorem add_key_rejected_iff_key_present_witness :
    ((add_key idSerializer [("a", "b")] "a" "x").1 = .error .keyAlreadyExists ↔
      (dbGet [("a", "b")] "a").isSome = true) ∧
    ((dbGet [("a", "b")] "a").isSome = true →
      add_key idSerializer [("a", "b")] "a" "x" =
        (.error .keyAlreadyExists, [("a", "b")])) :=
  add_key_rejected_iff_key_present Database idSerializer [("a", "b")] "a" "x"
    [("a", "b")] rfl (fun d hc => by simp [idSerializer] at hc)

/-- Claim C2: `remove_db_key` fails with `KeyDoesNotExist` iff the key is
absent from the store read from the resource; on that rejection no write
is performed (the resource is returned unmodified) and the error carries
the offending key. The hypothesis `hw` records that the backend writers
never produce `Error::KeyDoesNotExist` (true of all four adapters). -/
theorem remove_db_key_rejected_iff_key_absent (Res : Type) (s : Serializer Res)
    (r : Res) (k : String) (db : Database)
    (hr : s.read_from_file r = .ok db)
    (hw : ∀ (d : Database) (key : String),
      (s.write_to_file r d).1 ≠ .error (.keyDoesNotExist key)) :
    ((remove_db_key s r k).1 = .error (.keyDoesNotExist k) ↔ dbGet db k = none) ∧
    (dbGet db k = none →
      remove_db_key s r k = (.error (.keyDoesNotExist k), r)) := by
  have hstep : remove_db_key s r k =
      if (dbGet db k).isNone then (.error (.keyDoesNotExist k), r)
      else s.write_to_file r (dbRemove db k) := by
    unfold remove_db_key
    rw [hr]
  by_cases h : (dbGet db k).isNone = true
  · have hn : dbGet db k = none := Option.isNone_iff_eq_none.mp h
    rw [hstep, if_pos h]
    exact ⟨⟨fun _ => hn, fun _ => rfl⟩, fun _ => rfl⟩
  · have hn : ¬dbGet db k = none := fun hh => h (by simp [hh])
    rw [hstep, if_neg h]
    exact ⟨⟨fun hc => absurd hc (hw _ k), fun hc => absurd hc hn⟩,
      fun hc => absurd hc hn⟩

/-- Witness for the claim C2 theorem: database `[("a", "b")]`, removing
the absent key `"c"`. -/
theorem remove_db_key_rejected_iff_key_absent_witness :
    ((remove_db_key idSerializer [("a", "b")] "c").1 =
        .error (.keyDoesNotExist "c") ↔ dbGet [("a", "b")] "c" = none) ∧
    (dbGet [("a", "b")] "c" = none →
      remove_db_key idSerializer [("a", "b")] "c" =
        (.error (.keyDoesNotExist "c"), [("a", "b")])) :=
  remove_db_key_rejected_iff_key_absent Database idSerializer [("a", "b")] "c"
    [("a", "b")] rfl (fun d key hc => by simp [idSerializer] at hc)

/-- Claim C10: a successful mutating command changes only the targeted
key. After a successful `add_key` the store handed to the writer is the
read store extended with exactly `(k, v)`; after a successful
`remove_db_key` it is the read store with exactly key `k` deleted; every
other key's lookup is unchanged. -/
theorem mutating_commands_frame (Res : Type) (s : Serializer Res) (r : Res)
    (k v : String) (db : Database) (hr : s.read_from_file r = .ok db) :
    (dbGet db k = none →
      add_key s r k v = s.write_to_file r (db ++ [(k, v)]) ∧
      ∀ k', dbGet (db ++ [(k, v)]) k' = if k' = k then some v else dbGet db k') ∧
    ((dbGet db k).isSome = true →
      remove_db_key s r k = s.write_to_file r (dbRemove db k) ∧
      ∀ k', dbGet (dbRemove db k) k' = if k' = k then none else dbGet db k') := by
  constructor
  · intro hnone
    have hstep : add_key s r k v =
        if (dbGet db k).isSome then (.error .keyAlreadyExists, r)
        else s.write_to_file r (dbInsert db k v) := by
      unfold add_key
      rw [hr]
    refine ⟨?_, fun k' => dbGet_append_single v hnone k'⟩
    rw [hstep, if_neg (by simp [hnone]), dbInsert_of_none v hnone]
  · intro hsome
    have hstep : remove_db_key s r k =
        if (dbGet db k).isNone then (.error (.keyDoesNotExist k), r)
        else s.write_to_file r (dbRemove db k) := by
      unfold remove_db_key
      rw [hr]
    refine ⟨?_, fun k' => dbGet_dbRemove_frame db k k'⟩
    rw [hstep, if_neg ?_]
    intro hh
    rw [Option.isNone_iff_eq_none.mp hh] at hsome
    simp at hsome

/-- Witness for the claim C10 theorem: database `[("a", "b")]`; add the
fresh key `"c"`, remove the present key `"a"`. -/
theorem mutating_commands_frame_witness :
    (add_key idSerializer [("a", "b")] "c" "d" =
      idSerializer.write_to_file [("a", "b")] ([("a", "b")] ++ [("c", "d")])) ∧
    (dbGet ([("a", "b")] ++ [("c", "d")]) "a" =
      if "a" = "c" then some "d" else dbGet [("a", "b")] "a") ∧
    (remove_db_key idSerializer [("a", "b")] "a" =
      idSerializer.write_to_file [("a", "b")] (dbRemove [("a", "b")] "a")) ∧
    (dbGet (dbRemove [("a", "b")] "a") "b" =
      if "b" = "a" then none else dbGet [("a", "b")] "b") := by
  have h1 := (mutating_commands_frame Database idSerializer [("a", "b")] "c" "d"
    [("a", "b")] rfl).1 rfl
  have h2 := (mutating_commands_frame Database idSerializer [("a", "b")] "a" "x"
    [("a", "b")] rfl).2 rfl
  exact ⟨h1.1, h1.2 "a", h2.1, h2.2 "b"⟩

/-- Claim C3: for every store with unique keys, write-then-read is a
round trip on every backend — YAML, JSON, SQLite (through a fully
succeeding transaction, for any prior table) and CSV read back exactly
the written mapping. -/
theorem write_read_roundtrip_all_backends (db : Database) (old : Table)
    (h : keysNodup db = true) :
    yaml_read_from_file (yaml_write_to_file db) = .ok db ∧
    json_read_from_file (json_write_to_file db) = .ok db ∧
    sqlite_write_to_file noFail old db = (.ok (), db) ∧
    sqlite_read_from_file db = .ok db ∧
    csv_read_from_file (csv_write_to_file db) = .ok db := by
  have hread : readRows [] db = .ok db := by
    have hr := readRows_ok db [] h (fun p _ => rfl)
    simpa using hr
  refine ⟨?_, ?_, sqlite_write_noFail h old, hread, ?_⟩
  · unfold yaml_read_from_file yaml_write_to_file
    rw [mapFromEntries_self h]
  · unfold json_read_from_file json_write_to_file
    rw [mapFromEntries_self h]
  · have hcsv : csv_read_from_file (csv_write_to_file db) =
        csvReadRecords 2 [] (db.map fun p => [p.1, p.2]) := rfl
    rw [hcsv, csvReadRecords_map db [], hread]

/-- Witness for the claim C3 theorem at the two-entry store
`[("a", "1"), ("b", "2")]` and prior table `[("z", "9")]`. -/
theorem write_read_roundtrip_all_backends_witness :
    yaml_read_from_file (yaml_write_to_file [("a", "1"), ("b", "2")]) =
      .ok [("a", "1"), ("b", "2")] ∧
    json_read_from_file (json_write_to_file [("a", "1"), ("b", "2")]) =
      .ok [("a", "1"), ("b", "2")] ∧
    sqlite_write_to_file noFail [("z", "9")] [("a", "1"), ("b", "2")] =
      (.ok (), [("a", "1"), ("b", "2")]) ∧
    sqlite_read_from_file [("a", "1"), ("b", "2")] =
      .ok [("a", "1"), ("b", "2")] ∧
    csv_read_from_file (csv_write_to_file [("a", "1"), ("b", "2")]) =
      .ok [("a", "1"), ("b", "2")] :=
  write_read_roundtrip_all_backends [("a", "1"), ("b", "2")] [("z", "9")] rfl

/-- Claim C4: an input containing two rows with the same key makes the
SQLite and CSV reads fail with the duplicate-key error — the spec's
`DuplicateKey` kind, rendered in the code as `Error::KeyAlreadyExists`
raised from `read_from_file` — rather than silently keeping one value. -/
theorem duplicate_key_input_read_rejected (rows : Table)
    (header : List String) (pairs : Database)
    (h1 : keysNodup rows = false) (h2 : header.length = 2)
    (h3 : keysNodup pairs = false) :
    sqlite_read_from_file rows = .error .keyAlreadyExists ∧
    csv_read_from_file (header :: pairs.map fun p => [p.1, p.2]) =
      .err .keyAlreadyExists := by
  refine ⟨readRows_err rows [] (Or.inl h1), ?_⟩
  have hcsv : csv_read_from_file (header :: pairs.map fun p => [p.1, p.2]) =
      csvReadRecords header.length [] (pairs.map fun p => [p.1, p.2]) := rfl
  rw [hcsv, h2, csvReadRecords_map pairs [], readRows_err pairs [] (Or.inl h3)]

/-- Witness for the claim C4 theorem: the key `"a"` occurs twice, both as
SQLite rows and as CSV records under a `key,value` header. -/
theorem duplicate_key_input_read_rejected_witness :
    sqlite_read_from_file [("a", "1"), ("a", "2")] = .error .keyAlreadyExists ∧
    csv_read_from_file
        (["key", "value"] :: [("a", "1"), ("a", "2")].map fun p => [p.1, p.2]) =
      .err .keyAlreadyExists :=
  duplicate_key_input_read_rejected [("a", "1"), ("a", "2")] ["key", "value"]
    [("a", "1"), ("a", "2")] rfl rfl rfl

/-- Claim C5: `init_db` hands the writer the store containing exactly the
two seed entries `hat → fedora` and `food → hotdog`, whatever the prior
resource holds; the SQLite writer installs exactly that store over any
prior table, and the CSV writer emits exactly the header plus the two
seed rows. -/
theorem init_db_writes_exact_seed (Res : Type) (s : Serializer Res) (r : Res) :
    init_db s r = s.write_to_file r initStore ∧
    initStore.length = 2 ∧
    (∀ k, dbGet initStore k =
      if k = "hat" then some "fedora"
      else if k = "food" then some "hotdog" else none) ∧
    (∀ old : Table,
      sqlite_write_to_file noFail old initStore = (.ok (), initStore)) ∧
    csv_write_to_file initStore =
      [["key", "value"], ["hat", "fedora"], ["food", "hotdog"]] := by
  refine ⟨rfl, rfl, ?_,
    fun old => sqlite_write_noFail (show keysNodup initStore = true from rfl) old,
    rfl⟩
  have hseed : initStore = [("hat", "fedora"), ("food", "hotdog")] := rfl
  intro k
  rw [hseed]
  by_cases h1 : k = "hat"
  · subst h1; rfl
  · by_cases h2 : k = "food"
    · subst h2; rfl
    · rw [if_neg h1, if_neg h2]
      simp only [dbGet]
      rw [if_neg (fun hh : "hat" = k => h1 hh.symm),
        if_neg (fun hh : "food" = k => h2 hh.symm)]

/-- Claim C6: the backend selector is total (no error path) and picks by
suffix, first match winning: `.yml` → YAML, `.json` → JSON,
`.db`/`.sqlite` → SQLite, `.csv` → CSV, anything else → YAML. It agrees
with the spec's selection contract on every name, in particular on the
spec's sample names. -/
theorem create_serializer_selects_by_suffix :
    (∀ fname, create_serializer fname = selector_spec fname) ∧
    create_serializer "x.yml" = .yaml ∧
    create_serializer "x.json" = .json ∧
    create_serializer "x.db" = .sqlite ∧
    create_serializer "x.sqlite" = .sqlite ∧
    create_serializer "x.csv" = .csvKind ∧
    create_serializer "x.txt" = .yaml := by
  refine ⟨?_, rfl, rfl, rfl, rfl, rfl, rfl⟩
  intro fname
  unfold create_serializer selector_spec
  cases h1 : ends_with fname ".yml" <;>
    cases h2 : ends_with fname ".json" <;>
      cases h3 : ends_with fname ".db" <;>
        cases h4 : ends_with fname ".sqlite" <;>
          cases h5 : ends_with fname ".csv" <;>
            simp [h1, h2, h3, h4, h5]

/-- Claim C7, counterexample: a CSV input whose header has 3 fields and
whose next record also has 3 fields slips past the reader's field-count
check (the `csv` crate compares against the header's length, not 2), so
`assert_eq!(kv.len(), 2)` fires: the read panics instead of returning an
error. -/
theorem csv_read_assert_fires :
    csv_read_from_file [["a", "b", "c"], ["x", "y", "z"]] = .panicked ∧
    (csv_read_from_file [["a", "b", "c"], ["x", "y", "z"]]).isErr = false :=
  ⟨rfl, rfl⟩

theorem csvReadRecords_two (recs : List (List String)) : ∀ db : Database,
    csvReadRecords 2 db recs ≠ .panicked ∧
    ((recs.any fun f => f.length != 2) = true →
      (csvReadRecords 2 db recs).isErr = true) := by
  induction recs with
  | nil =>
    intro db
    exact ⟨fun hh => ReadOutcome.noConfusion hh, by simp⟩
  | cons fields rest ih =>
    intro db
    cases fields with
    | nil =>
      have hstep : csvReadRecords 2 db ([] :: rest) = .err .csv := rfl
      rw [hstep]
      exact ⟨fun hh => ReadOutcome.noConfusion hh, fun _ => rfl⟩
    | cons a t1 =>
      cases t1 with
      | nil =>
        have hstep : csvReadRecords 2 db ([a] :: rest) = .err .csv := rfl
        rw [hstep]
        exact ⟨fun hh => ReadOutcome.noConfusion hh, fun _ => rfl⟩
      | cons b t2 =>
        cases t2 with
        | nil =>
          have hstep : csvReadRecords 2 db ([a, b] :: rest) =
              if (dbGet db a).isSome then .err .keyAlreadyExists
              else csvReadRecords 2 (db ++ [(a, b)]) rest := rfl
          rw [hstep]
          by_cases hdup : (dbGet db a).isSome = true
          · rw [if_pos hdup]
            exact ⟨fun hh => ReadOutcome.noConfusion hh, fun _ => rfl⟩
          · rw [if_neg hdup]
            rcases ih (db ++ [(a, b)]) with ⟨ihp, ihe⟩
            refine ⟨ihp, fun hany => ihe ?_⟩
            simpa using hany
        | cons c t3 =>
          have hstep : csvReadRecords 2 db ((a :: b :: c :: t3) :: rest) =
              .err .csv := rfl
          rw [hstep]
          exact ⟨fun hh => ReadOutcome.noConfusion hh, fun _ => rfl⟩

/-- Claim C7 (amended): for CSV inputs whose header record has exactly 2
fields — which is what `write_to_file` always produces — the read never
panics (the assertion never fires), and whenever some record after the
header does not have exactly 2 fields the read fails by returning an
error. Without the header restriction the claim is false:
see the counterexample. -/
theorem csv_read_two_field_header_safe (header : List String)
    (rest : List (List String)) (h2 : header.length = 2) :
    csv_read_from_file (header :: rest) ≠ .panicked ∧
    ((rest.any fun f => f.length != 2) = true →
      (csv_read_from_file (header :: rest)).isErr = true) := by
  have hstep : csv_read_from_file (header :: rest) =
      csvReadRecords header.length [] rest := rfl
  rw [hstep, h2]
  exact csvReadRecords_two rest []

/-- Witness for the amended claim C7 theorem: a well-formed header
followed by a 1-field record. -/
theorem csv_read_two_field_header_safe_witness :
    csv_read_from_file [["key", "value"], ["x"]] ≠ .panicked ∧
    (([["x"]].any fun f => f.length != 2) = true →
      (csv_read_from_file [["key", "value"], ["x"]]).isErr = true) :=
  csv_read_two_field_header_safe ["key", "value"] [["x"]] rfl

/-- Claim C8: the SQLite write is an atomic replace. If the commit ran
(success) then every insert succeeded and the committed table is exactly
the written store, and the commit step — placed after all the inserts —
did not fail; on any failure the transaction is not committed and the
previously stored table is unchanged. -/
theorem sqlite_write_transaction_atomic (fail : Nat → Bool) (old : Table)
    (db : Database) :
    ((sqlite_write_to_file fail old db).1 = .ok () →
      (sqlite_write_to_file fail old db).2 = db ∧
      fail (2 + db.length) = false) ∧
    ((sqlite_write_to_file fail old db).1 ≠ .ok () →
      (sqlite_write_to_file fail old db).2 = old) := by
  unfold sqlite_write_to_file
  by_cases h0 : fail 0 = true
  · simp [h0]
  · rw [if_neg h0]
    by_cases h1 : fail 1 = true
    · simp [h1]
    · rw [if_neg h1]
      cases hins : insertRowsTx fail 2 [] db with
      | error e => simp [hins]
      | ok pending =>
        have hpend : pending = [] ++ db :=
          insertRowsTx_ok_shape fail db 2 [] pending hins
        simp only [hins]
        by_cases hc : fail (2 + db.length) = true
        · rw [if_pos hc]
          exact ⟨fun hh => absurd hh (fun hh2 => Except.noConfusion hh2),
            fun _ => rfl⟩
        · rw [if_neg hc]
          refine ⟨fun _ => ⟨by simpa using hpend, by simpa using hc⟩,
            fun hcontra => absurd rfl hcontra⟩

/-- Witness for the claim C8 theorem: a fully succeeding run installs the
new row over the prior table, and a run whose CREATE TABLE step fails
leaves the prior table untouched. -/
theorem sqlite_write_transaction_atomic_witness :
    ((sqlite_write_to_file noFail [("z", "9")] [("a", "1")]).2 = [("a", "1")] ∧
      noFail (2 + [("a", "1")].length) = false) ∧
    (sqlite_write_to_file failCreate [("z", "9")] [("a", "1")]).2 =
      [("z", "9")] := by
  constructor
  · exact (sqlite_write_transaction_atomic noFail [("z", "9")] [("a", "1")]).1 rfl
  · exact (sqlite_write_transaction_atomic failCreate [("z", "9")]
      [("a", "1")]).2 (fun hh => Except.noConfusion hh)

/-- Claim C9: `init_db` never invokes the adapter's read: its outcome is
identical for any two serializers sharing a writer, whatever their
readers do on whatever the resource holds; consequently a failure of
`init_db` is exactly a failure of the write path on the seed store — a
decode error can never arise. -/
theorem init_db_never_reads (Res : Type) (s t : Serializer Res) (r : Res)
    (e : Error) (hw : s.write_to_file = t.write_to_file) :
    init_db s r = init_db t r ∧
    ((init_db s r).1 = .error e →
      (s.write_to_file r initStore).1 = .error e) := by
  unfold init_db
  rw [hw]
  exact ⟨rfl, fun hh => hh⟩

/-- Witness for the claim C9 theorem: a serializer whose read always
fails with a decode error gives `init_db` the same outcome as one whose
read succeeds, and the failure `init_db` reports is the writer's. -/
theorem init_db_never_reads_witness :
    init_db readFailsSerializer () = init_db readOkSerializer () ∧
    (readFailsSerializer.write_to_file () initStore).1 = .error .ioErr :=
  ⟨(init_db_never_reads Unit readFailsSerializer readOkSerializer ()
      .ioErr rfl).1,
    (init_db_never_reads Unit readFailsSerializer readOkSerializer ()
      .ioErr rfl).2 rfl⟩

end KVStoreDemo
